import Mathlib

/-!
# SkillHub backend — shallow embedding and verification

This file embeds the SkillHub Express backend (registration, login, JWT auth
middleware, and skill CRUD handlers over `users`/`skills` tables) as pure
Lean functions, and proves the specified properties about them.

The request handlers are translated directly from the source
(`src/unnamed/part_000`).  The external collaborators — the bcrypt credential
hasher and the jsonwebtoken token service — are not part of the repository;
they are modelled from the spec's contracts (§2 Credential Hasher, §4.1 Token
Service), with fully executable definitions.
-/

namespace SkillHub

/-- JavaScript truthiness of an optional string request field:
`undefined`/`null` (here `none`) and the empty string are falsy. -/
def truthy : Option String → Bool
  | none => false
  | some s => !(s == "")

/-! ## Credential hasher (modelled from the spec)

Modelled from the spec: the Credential Hasher is "one-way password hashing
and verification (salted, cost-factored)" provided by the external bcrypt
library, which is not part of this repository.  A hash embeds a fixed
algorithm/cost marker and the salt, followed by a digest of the plaintext;
`compare` re-derives the candidate hash from the salt embedded in the stored
value and checks for equality. -/

/-- Modelled from the spec: bcrypt-style salted hash.  The output embeds the
algorithm/cost marker and the salt, then a digest of the plaintext. -/
def bcryptHash (salt plain : String) : String :=
  "$2b$10$" ++ salt ++ "$" ++ plain

/-- Extract the salt embedded in a stored hash: the characters after the
7-character `$2b$10$` marker, up to the next `$`. -/
def extractSaltData : List Char → List Char
  | [] => []
  | c :: cs => if c == '$' then [] else c :: extractSaltData cs

/-- A well-formed bcrypt salt contains no `$` separator character. -/
def saltOk (salt : String) : Bool :=
  salt.data.all (fun c => !(c == '$'))

/-- Modelled from the spec: bcrypt `compare` — recompute the hash of the
candidate plaintext using the salt embedded in the stored hash, and test
for equality with the stored hash. -/
def bcryptCompare (plain h : String) : Bool :=
  h == bcryptHash (String.mk (extractSaltData (h.data.drop 7))) plain

/-! ## Token service (modelled from the spec)

Modelled from the spec (§4.1): the Token Service is the external
jsonwebtoken library, not part of this repository.  `issue` signs a payload
containing {userId, username, email} with a secret key and an absolute
expiry; `verify` fails with `InvalidSignature` if the signature does not
match, or `Expired` if current time exceeds the embedded expiry. -/

/-- The identity claims carried in a token payload. -/
structure Claims where
  userId : Nat
  username : String
  email : String
deriving DecidableEq, Repr

/-- A decoded token: payload claims, absolute expiry (seconds), signature. -/
structure Token where
  claims : Claims
  exp : Nat
  sig : String
deriving DecidableEq, Repr

/-- Modelled from the spec: the signature over the payload, keyed by the
shared secret. -/
def jwtSignature (secret : String) (c : Claims) (exp : Nat) : String :=
  secret ++ "|" ++ toString c.userId ++ "|" ++ c.username ++ "|" ++ c.email
    ++ "|" ++ toString exp

/-- Modelled from the spec: `issue(claims, ttl)` — sign the payload with an
absolute expiry of `now + ttl`. -/
def jwtSign (secret : String) (c : Claims) (now ttl : Nat) : Token :=
  { claims := c, exp := now + ttl, sig := jwtSignature secret c (now + ttl) }

/-- Outcome of token verification. -/
inductive VerifyResult where
  | ok (c : Claims)
  | invalidSignature
  | expired
deriving DecidableEq, Repr

/-- Modelled from the spec: `verify(token)` — fails with `InvalidSignature`
if the signature does not match, or `Expired` if current time exceeds the
embedded expiry; otherwise returns the decoded claims. -/
def jwtVerify (secret : String) (now : Nat) (t : Token) : VerifyResult :=
  if t.sig == jwtSignature secret t.claims t.exp then
    if t.exp < now then .expired else .ok t.claims
  else .invalidSignature

/-! ### Wire format

On the wire a token is a string.  We use an injective, executable encoding:
natural numbers in unary (`I` repeated), length-prefixed string fields. -/

/-- Unary encoding of a natural number. -/
def encNat (n : Nat) : List Char := List.replicate n 'I'

/-- Length-prefixed encoding of a string field. -/
def encStr (s : String) : List Char := encNat s.data.length ++ ':' :: s.data

/-- Decode one length-prefixed string field, returning the field and the
remainder. -/
def decStrData (l : List Char) : Option (List Char × List Char) :=
  let n := (l.takeWhile (fun c => c == 'I')).length
  match l.drop n with
  | ':' :: rest =>
      if n ≤ rest.length then some (rest.take n, rest.drop n) else none
  | _ => none

/-- Serialize a token to its wire string. -/
def encodeToken (t : Token) : String :=
  String.mk (encNat t.claims.userId ++ '#' ::
    (encStr t.claims.username ++ (encStr t.claims.email ++
      (encNat t.exp ++ '#' :: t.sig.data))))

/-- Decode one unary number terminated by `#`, returning it and the
remainder. -/
def decNatData (l : List Char) : Option (Nat × List Char) :=
  match l.drop ((l.takeWhile (fun c => c == 'I')).length) with
  | '#' :: rest => some ((l.takeWhile (fun c => c == 'I')).length, rest)
  | _ => none

/-- Parse a wire string back into a token. -/
def decodeToken (s : String) : Option Token :=
  match decNatData s.data with
  | some (uid, r1) =>
    match decStrData r1 with
    | some (un, r2) =>
      match decStrData r2 with
      | some (em, r3) =>
        match decNatData r3 with
        | some (ex, sg) =>
            some { claims := { userId := uid, username := String.mk un,
                               email := String.mk em },
                   exp := ex, sig := String.mk sg }
        | none => none
      | none => none
    | none => none
  | none => none

/-- Modelled from the spec: `verify` on a wire string — a string that does
not parse as a token is an invalid token (the middleware treats every
verification failure uniformly). -/
def jwtVerifyStr (secret : String) (now : Nat) (s : String) : VerifyResult :=
  match decodeToken s with
  | none => .invalidSignature
  | some t => jwtVerify secret now t

/-! ## Auth middleware

From the source (lines 22–35):
```js
const token = req.header('Authorization')?.replace('Bearer ', '');
if (!token) { return res.status(401).json({ error: 'Access denied, token missing' }); }
try { const decoded = jwt.verify(token, 'your_secret_key'); req.user = decoded; next(); }
catch (err) { res.status(400).json({ error: 'Invalid token' }); }
```
JavaScript `String.replace` with a string pattern removes only the FIRST
occurrence of the pattern, anywhere in the string; a header with no
occurrence is passed through unchanged. -/

/-- `startsWithL pat l` : `pat` is a literal prefix of `l`. -/
def startsWithL : List Char → List Char → Bool
  | [], _ => true
  | _ :: _, [] => false
  | p :: ps, c :: cs => p == c && startsWithL ps cs

/-- Remove the first occurrence of `pat` from a character list
(JavaScript `String.replace(pat, '')`). -/
def removeFirst (pat : List Char) : List Char → List Char
  | [] => []
  | c :: cs =>
      if startsWithL pat (c :: cs) then (c :: cs).drop pat.length
      else c :: removeFirst pat cs

/-- The characters of the bearer marker `"Bearer "`. -/
def bearerData : List Char := "Bearer ".data

/-- `header.replace('Bearer ', '')` from the middleware. -/
def stripBearer (s : String) : String :=
  String.mk (removeFirst bearerData s.data)

/-- Outcome of the auth middleware for one request. -/
inductive AuthOutcome where
  | missing
  | invalid
  | authed (c : Claims)
deriving DecidableEq, Repr

/-- The HTTP status the middleware responds with when it rejects a request
(`none` when the request proceeds to the handler). -/
def authStatus : AuthOutcome → Option Nat
  | .missing => some 401
  | .invalid => some 400
  | .authed _ => none

/-- The `authenticate` middleware, translated from source lines 22–35. -/
def authenticate (secret : String) (now : Nat) (header : Option String) :
    AuthOutcome :=
  match header with
  | none => .missing
  | some h =>
    let token := stripBearer h
    if token == "" then .missing
    else
      match jwtVerifyStr secret now token with
      | .ok c => .authed c
      | _ => .invalid

/-! ## Data model and persistence -/

/-- A row of the `users` table. -/
structure UserRow where
  id : Nat
  username : String
  email : String
  password : String
deriving DecidableEq, Repr

/-- A row of the `skills` table. -/
structure SkillRow where
  id : Nat
  user_id : Nat
  skill_name : String
  proficiency : String
deriving DecidableEq, Repr

/-- The database state: the two tables plus the id sequences. -/
structure DB where
  users : List UserRow
  skills : List SkillRow
  nextUserId : Nat
  nextSkillId : Nat
deriving DecidableEq, Repr

/-- `SELECT * FROM users WHERE email = $1`. -/
def findByEmail (db : DB) (e : String) : List UserRow :=
  db.users.filter (fun u => u.email == e)

/-- `SELECT * FROM users WHERE username = $1`. -/
def findByUsername (db : DB) (n : String) : List UserRow :=
  db.users.filter (fun u => u.username == n)

/-! ## Route handlers

Each handler returns its response, the resulting database state, and the
number of `pool.query` round trips it performed. -/

/-- Request body of `POST /register` (fields may be absent). -/
structure RegisterReq where
  username : Option String
  email : Option String
  password : Option String
deriving DecidableEq, Repr

/-- Response of `POST /register`. -/
inductive RegisterResp where
  | validationError
  | emailConflict
  | usernameConflict
  | created (u : UserRow)
deriving DecidableEq, Repr

/-- HTTP status of a `POST /register` response. -/
def registerStatus : RegisterResp → Nat
  | .created _ => 201
  | _ => 400

/-- The user row inserted by a successful registration: the password column
holds the salted hash, never the plaintext. -/
def registerRow (salt : String) (req : RegisterReq) (db : DB) : UserRow :=
  { id := db.nextUserId, username := req.username.getD "",
    email := req.email.getD "",
    password := bcryptHash salt (req.password.getD "") }

/-- `POST /register` (source lines 55–93): require all three fields, check
email then username for conflicts, then hash the password and insert. -/
def register (salt : String) (req : RegisterReq) (db : DB) :
    RegisterResp × DB × Nat :=
  if !(truthy req.username && truthy req.email && truthy req.password) then
    (.validationError, db, 0)
  else if (findByEmail db (req.email.getD "")).length > 0 then
    (.emailConflict, db, 1)
  else if (findByUsername db (req.username.getD "")).length > 0 then
    (.usernameConflict, db, 2)
  else
    (.created (registerRow salt req db),
     { db with users := db.users ++ [registerRow salt req db],
               nextUserId := db.nextUserId + 1 },
     3)

/-- Request body of `POST /login`. -/
structure LoginReq where
  email : Option String
  password : Option String
deriving DecidableEq, Repr

/-- Response of `POST /login`. -/
inductive LoginResp where
  | validationError
  | notFound
  | unauthorized
  | success (token : Token)
deriving DecidableEq, Repr

/-- HTTP status of a `POST /login` response. -/
def loginStatus : LoginResp → Nat
  | .validationError => 400
  | .notFound => 404
  | .unauthorized => 401
  | .success _ => 200

/-- `POST /login` (source lines 96–134): require both fields, look up the
user by email (`result.rows[0]`), compare the password against the stored
hash, and on success sign a token with a 1-hour expiry. -/
def login (secret : String) (now : Nat) (req : LoginReq) (db : DB) :
    LoginResp × DB × Nat :=
  if !(truthy req.email && truthy req.password) then
    (.validationError, db, 0)
  else
    match (findByEmail db (req.email.getD "")).head? with
    | none => (.notFound, db, 1)
    | some user =>
      if !(bcryptCompare (req.password.getD "") user.password) then
        (.unauthorized, db, 1)
      else
        (.success (jwtSign secret
            { userId := user.id, username := user.username, email := user.email }
            now 3600),
         db, 1)

/-- `GET /skills` (source lines 137–149): all skills whose `user_id` is the
caller's token claim. -/
def listSkills (userId : Nat) (db : DB) : List SkillRow :=
  db.skills.filter (fun s => s.user_id == userId)

/-- Request body of `POST /skills`.  The handler destructures only
`skill_name` and `proficiency`; any user identifier in the body is ignored. -/
structure AddSkillReq where
  skill_name : Option String
  proficiency : Option String
  user_id : Option Nat
deriving DecidableEq, Repr

/-- Response of `POST /skills`. -/
inductive AddSkillResp where
  | validationError
  | created (s : SkillRow)
deriving DecidableEq, Repr

/-- HTTP status of a `POST /skills` response. -/
def addSkillStatus : AddSkillResp → Nat
  | .validationError => 400
  | .created _ => 201

/-- The skill row inserted by `POST /skills`: `user_id` comes from the
caller's verified token claims, never from the request body. -/
def skillRow (c : Claims) (req : AddSkillReq) (db : DB) : SkillRow :=
  { id := db.nextSkillId, user_id := c.userId,
    skill_name := req.skill_name.getD "",
    proficiency := req.proficiency.getD "" }

/-- `POST /skills` (source lines 152–175): require both fields, insert with
`user_id` taken from the verified token's claims. -/
def addSkill (c : Claims) (req : AddSkillReq) (db : DB) :
    AddSkillResp × DB × Nat :=
  if !(truthy req.skill_name && truthy req.proficiency) then
    (.validationError, db, 0)
  else
    (.created (skillRow c req db),
     { db with skills := db.skills ++ [skillRow c req db],
               nextSkillId := db.nextSkillId + 1 },
     1)

/-- Request body of `PUT /skills/:id`. -/
structure UpdateSkillReq where
  skill_name : Option String
  proficiency : Option String
deriving DecidableEq, Repr

/-- Response of `PUT /skills/:id`. -/
inductive UpdateSkillResp where
  | validationError
  | notFound
  | updated (s : SkillRow)
deriving DecidableEq, Repr

/-- HTTP status of a `PUT /skills/:id` response. -/
def updateSkillStatus : UpdateSkillResp → Nat
  | .validationError => 400
  | .notFound => 404
  | .updated _ => 200

/-- `UPDATE skills SET skill_name = $1, proficiency = $2` applied to one
row. -/
def updSkill (req : UpdateSkillReq) (s : SkillRow) : SkillRow :=
  { s with skill_name := req.skill_name.getD "",
           proficiency := req.proficiency.getD "" }

/-- `PUT /skills/:id` (source lines 178–203): require both fields, then
`UPDATE skills SET ... WHERE id = $3 RETURNING *`; 404 when no row matched.
No ownership check: the caller's identity is never consulted. -/
def updateSkill (id : Nat) (req : UpdateSkillReq) (db : DB) :
    UpdateSkillResp × DB × Nat :=
  if !(truthy req.skill_name && truthy req.proficiency) then
    (.validationError, db, 0)
  else
    match (db.skills.filter (fun s => s.id == id)).map (updSkill req) with
    | [] => (.notFound, db, 1)
    | r :: _ =>
        (.updated r,
         { db with skills :=
             db.skills.map (fun s => if s.id == id then updSkill req s else s) },
         1)

/-- Response of `DELETE /skills/:id`. -/
inductive DeleteSkillResp where
  | notFound
  | deleted
deriving DecidableEq, Repr

/-- HTTP status of a `DELETE /skills/:id` response. -/
def deleteSkillStatus : DeleteSkillResp → Nat
  | .notFound => 404
  | .deleted => 200

/-- `DELETE /skills/:id` (source lines 206–222): `DELETE FROM skills WHERE
id = $1 RETURNING *`; 404 when no row matched.  No ownership check. -/
def deleteSkill (id : Nat) (db : DB) : DeleteSkillResp × DB × Nat :=
  match db.skills.filter (fun s => s.id == id) with
  | [] => (.notFound, db, 1)
  | _ :: _ =>
      (.deleted,
       { db with skills := db.skills.filter (fun s => !(s.id == id)) },
       1)

/-- Result of running a protected route: either the middleware rejected the
request, or the handler ran with the decoded claims attached. -/
inductive RouteResult (α : Type) where
  | missingToken
  | invalidToken
  | handled (a : α)
deriving DecidableEq, Repr

/-- A protected route: the middleware runs first; only on success does the
handler run, with the decoded claims attached to the request. -/
def protectedRoute {α : Type} (secret : String) (now : Nat)
    (header : Option String) (handler : Claims → α) : RouteResult α :=
  match authenticate secret now header with
  | .missing => .missingToken
  | .invalid => .invalidToken
  | .authed c => .handled (handler c)

/-! ## Helper lemmas -/

theorem extractSaltData_append (l r : List Char)
    (h : ∀ c ∈ l, (c == '$') = false) :
    extractSaltData (l ++ '$' :: r) = l := by
  induction l with
  | nil => simp [extractSaltData]
  | cons c cs ih =>
    have hc : (c == '$') = false := h c (by simp)
    simp only [List.cons_append, extractSaltData, hc, if_neg Bool.false_ne_true]
    show c :: extractSaltData (cs ++ '$' :: r) = c :: cs
    rw [ih (fun d hd => h d (by simp [hd]))]

theorem bcryptHash_data (salt plain : String) :
    (bcryptHash salt plain).data =
      '$' :: '2' :: 'b' :: '$' :: '1' :: '0' :: '$' ::
        (salt.data ++ '$' :: plain.data) := by
  simp [bcryptHash, String.data_append]

theorem bcryptCompare_hash (salt plain : String) (h : saltOk salt = true) :
    bcryptCompare plain (bcryptHash salt plain) = true := by
  have hdrop : (bcryptHash salt plain).data.drop 7 = salt.data ++ '$' :: plain.data := by
    rw [bcryptHash_data]
    rfl
  have hall : ∀ c ∈ salt.data, (c == '$') = false := by
    intro c hc
    have := (List.all_eq_true.mp h) c hc
    simpa using this
  unfold bcryptCompare
  rw [hdrop, extractSaltData_append _ _ hall]
  exact beq_self_eq_true _

theorem bcryptHash_ne_plain (salt plain : String) :
    bcryptHash salt plain ≠ plain := by
  intro h
  have hlen : (bcryptHash salt plain).data.length = plain.data.length :=
    congrArg (fun s : String => s.data.length) h
  rw [bcryptHash_data] at hlen
  simp [List.length_append] at hlen
  omega

theorem takeWhile_replicate_cons (n : Nat) (c : Char) (t : List Char)
    (h : (c == 'I') = false) :
    (List.replicate n 'I' ++ c :: t).takeWhile (fun x => x == 'I') =
      List.replicate n 'I' := by
  induction n with
  | zero => simp [List.takeWhile_cons, h]
  | succ m ih => simp [List.replicate_succ, List.takeWhile_cons, ih]

theorem drop_replicate_append (n : Nat) (t : List Char) :
    (List.replicate n 'I' ++ t).drop n = t :=
  List.drop_left' (by simp)

theorem decNatData_enc (n : Nat) (rest : List Char) :
    decNatData (encNat n ++ '#' :: rest) = some (n, rest) := by
  unfold decNatData encNat
  rw [takeWhile_replicate_cons n '#' rest (by decide)]
  simp only [List.length_replicate]
  rw [drop_replicate_append]
  rfl

theorem decStrData_enc (s : String) (rest : List Char) :
    decStrData (encStr s ++ rest) = some (s.data, rest) := by
  have hshape : encStr s ++ rest =
      List.replicate s.data.length 'I' ++ ':' :: (s.data ++ rest) := by
    simp [encStr, encNat]
  unfold decStrData
  rw [hshape, takeWhile_replicate_cons s.data.length ':' _ (by decide)]
  simp only [List.length_replicate]
  rw [drop_replicate_append]
  simp only [List.length_append, if_pos (Nat.le_add_right _ _)]
  rw [List.take_left' rfl, List.drop_left' rfl]

theorem decodeToken_encodeToken (t : Token) :
    decodeToken (encodeToken t) = some t := by
  have hdata : (encodeToken t).data =
      encNat t.claims.userId ++ '#' ::
        (encStr t.claims.username ++ (encStr t.claims.email ++
          (encNat t.exp ++ '#' :: t.sig.data))) := rfl
  unfold decodeToken
  rw [hdata]
  simp only [decNatData_enc, decStrData_enc]

theorem encodeToken_ne_empty (t : Token) : (encodeToken t == "") = false := by
  rw [Bool.eq_false_iff]
  intro h
  have h' : encodeToken t = "" := by exact_mod_cast eq_of_beq h
  have hlen : (encodeToken t).data.length = 0 := by rw [h']; rfl
  have : (encodeToken t).data =
      encNat t.claims.userId ++ '#' ::
        (encStr t.claims.username ++ (encStr t.claims.email ++
          (encNat t.exp ++ '#' :: t.sig.data))) := rfl
  rw [this] at hlen
  simp [List.length_append] at hlen

theorem startsWithL_append_self (l r : List Char) :
    startsWithL l (l ++ r) = true := by
  induction l with
  | nil => rfl
  | cons p ps ih => simp [startsWithL, ih]

theorem removeFirst_append_self (pat r : List Char) (h : pat ≠ []) :
    removeFirst pat (pat ++ r) = r := by
  match pat with
  | [] => exact absurd rfl h
  | p :: ps =>
    show removeFirst (p :: ps) ((p :: ps) ++ r) = r
    rw [List.cons_append]
    unfold removeFirst
    rw [show (p :: (ps ++ r)) = ((p :: ps) ++ r) from rfl,
        startsWithL_append_self (p :: ps) r]
    simp only [if_true]
    exact List.drop_left _ _

theorem stripBearer_bearer (x : String) :
    stripBearer ("Bearer " ++ x) = x := by
  unfold stripBearer
  rw [String.data_append]
  rw [show "Bearer ".data = bearerData from rfl]
  rw [removeFirst_append_self bearerData x.data (by decide)]

theorem jwtVerify_sign (secret : String) (c : Claims) (now ttl now' : Nat)
    (h : now' ≤ now + ttl) :
    jwtVerify secret now' (jwtSign secret c now ttl) = .ok c := by
  unfold jwtVerify jwtSign
  simp only [beq_self_eq_true, if_true]
  rw [if_neg (by omega)]

theorem register_created_inv (salt : String) (req : RegisterReq) (db : DB)
    (u : UserRow) (db' : DB) (q : Nat)
    (h : register salt req db = (.created u, db', q)) :
    truthy req.username = true ∧ truthy req.email = true ∧
    truthy req.password = true ∧
    findByEmail db (req.email.getD "") = [] ∧
    findByUsername db (req.username.getD "") = [] ∧
    u = registerRow salt req db ∧
    db' = { db with users := db.users ++ [u],
                    nextUserId := db.nextUserId + 1 } ∧
    q = 3 := by
  unfold register at h
  split at h
  next hall => simp at h
  next hall =>
    have htr : truthy req.username = true ∧ truthy req.email = true ∧
        truthy req.password = true := by
      rw [Bool.not_eq_true, Bool.not_eq_false'] at hall
      simpa [Bool.and_eq_true, and_assoc] using hall
    split at h
    next hemail => simp at h
    next hemail =>
      split at h
      next husername => simp at h
      next husername =>
        have hem : findByEmail db (req.email.getD "") = [] := by
          rw [← List.length_eq_zero]
          omega
        have hun : findByUsername db (req.username.getD "") = [] := by
          rw [← List.length_eq_zero]
          omega
        simp only [Prod.mk.injEq, RegisterResp.created.injEq] at h
        obtain ⟨hu, hdb, hq⟩ := h
        refine ⟨htr.1, htr.2.1, htr.2.2, hem, hun, hu.symm, ?_, hq.symm⟩
        rw [← hdb, ← hu]

/-! ## Claim theorems -/

/-- C3: Registration returns 400 (ValidationError) if any of username,
email, password is missing; otherwise it returns 400 (Conflict) if a row
with the given email already exists, then 400 (Conflict) if a row with the
given username already exists (email is checked before username), and only
when both checks pass does it insert a new user row and return 201 with the
created row. -/
theorem claim_C3 (salt : String) (req : RegisterReq) (db : DB) :
    ((truthy req.username && truthy req.email && truthy req.password) = false →
      register salt req db = (.validationError, db, 0) ∧
      registerStatus .validationError = 400)
  ∧ ((truthy req.username && truthy req.email && truthy req.password) = true →
      (findByEmail db (req.email.getD "")).length > 0 →
      register salt req db = (.emailConflict, db, 1) ∧
      registerStatus .emailConflict = 400)
  ∧ ((truthy req.username && truthy req.email && truthy req.password) = true →
      findByEmail db (req.email.getD "") = [] →
      (findByUsername db (req.username.getD "")).length > 0 →
      register salt req db = (.usernameConflict, db, 2) ∧
      registerStatus .usernameConflict = 400)
  ∧ ((truthy req.username && truthy req.email && truthy req.password) = true →
      findByEmail db (req.email.getD "") = [] →
      findByUsername db (req.username.getD "") = [] →
      register salt req db =
        (.created (registerRow salt req db),
         { db with users := db.users ++ [registerRow salt req db],
                   nextUserId := db.nextUserId + 1 }, 3) ∧
      registerStatus (.created (registerRow salt req db)) = 201) := by
  refine ⟨?_, ?_, ?_, ?_⟩
  · intro h
    simp [register, h, registerStatus]
  · intro ht he
    simp [register, ht, he, registerStatus]
  · intro ht he hu
    simp [register, ht, he, hu, registerStatus]
  · intro ht he hu
    simp [register, ht, he, hu, registerStatus]

/-- C4: Login returns 400 (ValidationError) when email or password is
missing; for a present email with no matching user row it returns 404
(NotFound); for a matching user row whose stored hash does not verify
against the submitted password it returns 401 (Unauthorized); these checks
happen in that order (the user lookup happens only after validation, the
password comparison only against the looked-up row). -/
theorem claim_C4 (secret : String) (now : Nat) (req : LoginReq) (db : DB)
    (user : UserRow) :
    ((truthy req.email && truthy req.password) = false →
      login secret now req db = (.validationError, db, 0) ∧
      loginStatus .validationError = 400)
  ∧ ((truthy req.email && truthy req.password) = true →
      (findByEmail db (req.email.getD "")).head? = none →
      login secret now req db = (.notFound, db, 1) ∧
      loginStatus .notFound = 404)
  ∧ ((truthy req.email && truthy req.password) = true →
      (findByEmail db (req.email.getD "")).head? = some user →
      bcryptCompare (req.password.getD "") user.password = false →
      login secret now req db = (.unauthorized, db, 1) ∧
      loginStatus .unauthorized = 401) := by
  refine ⟨?_, ?_, ?_⟩
  · intro h
    simp [login, h, loginStatus]
  · intro ht hh
    simp [login, ht, hh, loginStatus]
  · intro ht hh hc
    simp [login, ht, hh, hc, loginStatus]

/-- C6: For every authenticated add-skill request with skill_name and
proficiency present, the inserted skill row's user_id equals the userId
claim of the caller's verified token, regardless of any identifier supplied
in the request body; the handler returns 201 with the created row, and
returns 400 (ValidationError) when skill_name or proficiency is missing. -/
theorem claim_C6 (c : Claims) (req : AddSkillReq) (db : DB)
    (spoofed : Option Nat) :
    ((truthy req.skill_name && truthy req.proficiency) = true →
      addSkill c req db =
        (.created (skillRow c req db),
         { db with skills := db.skills ++ [skillRow c req db],
                   nextSkillId := db.nextSkillId + 1 }, 1)
      ∧ (skillRow c req db).user_id = c.userId
      ∧ addSkillStatus (.created (skillRow c req db)) = 201
      ∧ addSkill c { req with user_id := spoofed } db = addSkill c req db)
  ∧ ((truthy req.skill_name && truthy req.proficiency) = false →
      addSkill c req db = (.validationError, db, 0)
      ∧ addSkillStatus .validationError = 400) := by
  constructor
  · intro h
    refine ⟨by simp [addSkill, h], rfl, rfl, rfl⟩
  · intro h
    exact ⟨by simp [addSkill, h], rfl⟩

/-- C10: Empty strings are treated the same as absent fields at the public
interface: for every register, add-skill, or update-skill request in which
a required field is present but equal to the empty string, the handler
returns 400 without performing any database query (query count 0, database
unchanged). -/
theorem claim_C10 (salt : String) (db : DB) (r : RegisterReq)
    (a : AddSkillReq) (uq : UpdateSkillReq) (c : Claims) (id : Nat) :
    ((r.username = some "" ∨ r.email = some "" ∨ r.password = some "") →
      register salt r db = (.validationError, db, 0) ∧
      registerStatus .validationError = 400)
  ∧ ((a.skill_name = some "" ∨ a.proficiency = some "") →
      addSkill c a db = (.validationError, db, 0))
  ∧ ((uq.skill_name = some "" ∨ uq.proficiency = some "") →
      updateSkill id uq db = (.validationError, db, 0)) := by
  refine ⟨?_, ?_, ?_⟩
  · rintro (h | h | h) <;> simp [register, truthy, h, registerStatus]
  · rintro (h | h) <;> simp [addSkill, truthy, h]
  · rintro (h | h) <;> simp [updateSkill, truthy, h]

/-- C5: For every successful registration, the password field of the stored
(and returned) user row is the salted hash of the submitted password and
never equals the submitted plaintext; this invariant is preserved by every
operation, since no operation ever writes a plaintext password to the users
table (login and all skill handlers leave the users table unchanged). -/
theorem claim_C5 (salt : String) (req : RegisterReq) (db : DB) (u : UserRow)
    (db' : DB) (q : Nat) (secret : String) (now : Nat) (lreq : LoginReq)
    (c : Claims) (areq : AddSkillReq) (sid : Nat) (ureq : UpdateSkillReq)
    (d : DB)
    (hreg : register salt req db = (.created u, db', q)) :
    u.password = bcryptHash salt (req.password.getD "")
  ∧ u.password ≠ req.password.getD ""
  ∧ db'.users = db.users ++ [u]
  ∧ ((login secret now lreq d).2.1).users = d.users
  ∧ ((addSkill c areq d).2.1).users = d.users
  ∧ ((updateSkill sid ureq d).2.1).users = d.users
  ∧ ((deleteSkill sid d).2.1).users = d.users := by
  obtain ⟨-, -, -, -, -, hu, hdb, -⟩ :=
    register_created_inv salt req db u db' q hreg
  refine ⟨?_, ?_, ?_, ?_, ?_, ?_, ?_⟩
  · rw [hu]; rfl
  · rw [hu]
    exact bcryptHash_ne_plain salt (req.password.getD "")
  · rw [hdb]
  · unfold login
    split
    · rfl
    · split
      · rfl
      · split <;> rfl
  · unfold addSkill
    split <;> rfl
  · unfold updateSkill
    split
    · rfl
    · split <;> rfl
  · unfold deleteSkill
    split <;> rfl

/-- C7: Skill update and delete perform no ownership check: for every
authenticated caller and every existing skill id, the update (with both
required fields) and the delete succeed even when the skill's user_id
differs from the caller's userId claim; when the id matches no row, both
return 404 (NotFound). -/
theorem claim_C7 (secret : String) (now : Nat) (header : Option String)
    (c : Claims) (db : DB) (id : Nat) (req : UpdateSkillReq) (s : SkillRow)
    (hauth : authenticate secret now header = .authed c)
    (hf : (truthy req.skill_name && truthy req.proficiency) = true)
    (hs : s ∈ db.skills) (hid : s.id = id) (hown : s.user_id ≠ c.userId) :
    (∃ r db', protectedRoute secret now header (fun _ => updateSkill id req db)
        = .handled (.updated r, db', 1) ∧ updateSkillStatus (.updated r) = 200)
  ∧ (∃ db', protectedRoute secret now header (fun _ => deleteSkill id db)
        = .handled (.deleted, db', 1) ∧ deleteSkillStatus .deleted = 200)
  ∧ (∀ d : DB, (∀ t ∈ d.skills, t.id ≠ id) →
      updateSkill id req d = (.notFound, d, 1)
      ∧ deleteSkill id d = (.notFound, d, 1)
      ∧ updateSkillStatus .notFound = 404
      ∧ deleteSkillStatus .notFound = 404) := by
  have hmem : s ∈ db.skills.filter (fun t => t.id == id) :=
    List.mem_filter.mpr ⟨hs, by simp [hid]⟩
  refine ⟨?_, ?_, ?_⟩
  · rcases hfil : db.skills.filter (fun t => t.id == id) with _ | ⟨r, rs⟩
    · rw [hfil] at hmem
      exact absurd hmem (List.not_mem_nil s)
    · refine ⟨updSkill req r,
        { db with skills :=
            db.skills.map (fun t => if t.id == id then updSkill req t else t) },
        ?_, rfl⟩
      unfold protectedRoute
      rw [hauth]
      simp [updateSkill, hf, hfil]
  · rcases hfil : db.skills.filter (fun t => t.id == id) with _ | ⟨r, rs⟩
    · rw [hfil] at hmem
      exact absurd hmem (List.not_mem_nil s)
    · refine ⟨{ db with skills := db.skills.filter (fun t => !(t.id == id)) },
        ?_, rfl⟩
      unfold protectedRoute
      rw [hauth]
      simp [deleteSkill, hfil]
  · intro d hd
    have hfil : d.skills.filter (fun t => t.id == id) = [] := by
      rw [List.filter_eq_nil_iff]
      intro t ht
      simp [hd t ht]
    exact ⟨by simp [updateSkill, hf, hfil], by simp [deleteSkill, hfil],
           rfl, rfl⟩

/-- C8: After a delete of an existing skill id returns 200, a subsequent
authenticated skill listing for that skill's owner (indeed for any owner)
no longer contains a row with that id, and a repeated delete of the same id
returns 404 (NotFound); update or delete of an id never present also
returns 404. -/
theorem claim_C8 (db : DB) (id : Nat) (s : SkillRow) (req : UpdateSkillReq)
    (hs : s ∈ db.skills) (hid : s.id = id)
    (hf : (truthy req.skill_name && truthy req.proficiency) = true) :
    ∃ db' : DB,
      deleteSkill id db = (.deleted, db', 1)
    ∧ deleteSkillStatus .deleted = 200
    ∧ (∀ owner, ∀ t ∈ listSkills owner db', t.id ≠ id)
    ∧ deleteSkill id db' = (.notFound, db', 1)
    ∧ updateSkill id req db' = (.notFound, db', 1)
    ∧ deleteSkillStatus .notFound = 404
    ∧ updateSkillStatus .notFound = 404
    ∧ (∀ d : DB, (∀ t ∈ d.skills, t.id ≠ id) →
        deleteSkill id d = (.notFound, d, 1)
        ∧ updateSkill id req d = (.notFound, d, 1)) := by
  have hmem : s ∈ db.skills.filter (fun t => t.id == id) :=
    List.mem_filter.mpr ⟨hs, by simp [hid]⟩
  have habsent : ∀ d : DB, (∀ t ∈ d.skills, t.id ≠ id) →
      deleteSkill id d = (.notFound, d, 1)
      ∧ updateSkill id req d = (.notFound, d, 1) := by
    intro d hd
    have hfil : d.skills.filter (fun t => t.id == id) = [] := by
      rw [List.filter_eq_nil_iff]
      intro t ht
      simp [hd t ht]
    exact ⟨by simp [deleteSkill, hfil], by simp [updateSkill, hf, hfil]⟩
  refine ⟨{ db with skills := db.skills.filter (fun t => !(t.id == id)) },
          ?_, rfl, ?_, ?_, ?_, rfl, rfl, habsent⟩
  · rcases hfil : db.skills.filter (fun t => t.id == id) with _ | ⟨r, rs⟩
    · rw [hfil] at hmem
      exact absurd hmem (List.not_mem_nil s)
    · simp [deleteSkill, hfil]
  · intro owner t ht hcontra
    have ht' : t ∈ db.skills.filter (fun x => !(x.id == id)) :=
      List.mem_filter.mp ht |>.1
    have := (List.mem_filter.mp ht').2
    simp [hcontra] at this
  · refine (habsent _ ?_).1
    intro t ht hcontra
    have := (List.mem_filter.mp ht).2
    simp [hcontra] at this
  · refine (habsent _ ?_).2
    intro t ht hcontra
    have := (List.mem_filter.mp ht).2
    simp [hcontra] at this

/-- C2 counterexample: an Authorization header that is present but carries
no bearer prefix (`"garbage"`) is NOT answered with 401/MissingToken, as
the claim states; the middleware passes the unchanged header value to
`verify` and answers 400/InvalidToken. -/
theorem claim_C2_counterexample :
    authenticate "your_secret_key" 0 (some "garbage") ≠ .missing
  ∧ authenticate "your_secret_key" 0 (some "garbage") = .invalid
  ∧ authStatus .invalid = some 400 ∧ authStatus .missing = some 401 := by
  decide

/-- C2 (amended): the middleware responds 401 (MissingToken) when the
Authorization header is absent, or when removing the first occurrence of
`"Bearer "` from it leaves the empty string; any other header value — with
or without a bearer prefix — has that occurrence stripped and is passed to
verify, which yields 400 (InvalidToken) on any verification failure, and on
success the decoded claims are attached to the request and it proceeds. -/
theorem claim_C2 (secret : String) (now : Nat) (h : String) (c : Claims) :
    (authenticate secret now none = .missing
      ∧ authStatus .missing = some 401)
  ∧ (stripBearer h = "" → authenticate secret now (some h) = .missing)
  ∧ (stripBearer h ≠ "" →
      jwtVerifyStr secret now (stripBearer h) = .ok c →
      authenticate secret now (some h) = .authed c
      ∧ authStatus (.authed c) = none)
  ∧ (stripBearer h ≠ "" →
      jwtVerifyStr secret now (stripBearer h) = .invalidSignature →
      authenticate secret now (some h) = .invalid
      ∧ authStatus .invalid = some 400)
  ∧ (stripBearer h ≠ "" →
      jwtVerifyStr secret now (stripBearer h) = .expired →
      authenticate secret now (some h) = .invalid) := by
  refine ⟨⟨rfl, rfl⟩, ?_, ?_, ?_, ?_⟩
  · intro hempty
    simp [authenticate, hempty]
  · intro hne hok
    have hb : (stripBearer h == "") = false := by
      simpa using hne
    exact ⟨by simp [authenticate, hb, hok], rfl⟩
  · intro hne hinv
    have hb : (stripBearer h == "") = false := by
      simpa using hne
    exact ⟨by simp [authenticate, hb, hinv], rfl⟩
  · intro hne hexp
    have hb : (stripBearer h == "") = false := by
      simpa using hne
    simp [authenticate, hb, hexp]

theorem login_success_inv (secret : String) (now : Nat) (req : LoginReq)
    (db : DB) (tok : Token) (db' : DB) (q : Nat)
    (h : login secret now req db = (.success tok, db', q)) :
    ∃ user : UserRow,
      (findByEmail db (req.email.getD "")).head? = some user
    ∧ tok = jwtSign secret
        { userId := user.id, username := user.username, email := user.email }
        now 3600
    ∧ db' = db ∧ q = 1 := by
  unfold login at h
  split at h
  next => simp at h
  next =>
    split at h
    next => simp at h
    next user heq =>
      split at h
      next => simp at h
      next =>
        simp only [Prod.mk.injEq, LoginResp.success.injEq] at h
        exact ⟨user, heq, h.1.symm, h.2.1.symm, h.2.2.symm⟩

/-- C9: A token is never accepted after its embedded expiry: for every
token issued by login (expiry set to 1 hour = 3600 s from issuance), any
verification performed at a time later than issuance plus the TTL fails
with Expired, and the auth middleware therefore rejects a request carrying
that token with 400 rather than letting it proceed. -/
theorem claim_C9 (secret : String) (now t : Nat) (req : LoginReq) (db : DB)
    (tok : Token) (db' : DB) (q : Nat)
    (hlogin : login secret now req db = (.success tok, db', q))
    (ht : now + 3600 < t) :
    jwtVerify secret t tok = .expired
  ∧ authenticate secret t (some ("Bearer " ++ encodeToken tok)) = .invalid
  ∧ authStatus .invalid = some 400 := by
  obtain ⟨user, -, htok, -, -⟩ :=
    login_success_inv secret now req db tok db' q hlogin
  have hver : jwtVerify secret t tok = .expired := by
    rw [htok]
    unfold jwtVerify jwtSign
    simp only [beq_self_eq_true, if_true]
    rw [if_pos ht]
  refine ⟨hver, ?_, rfl⟩
  simp only [authenticate, stripBearer_bearer, encodeToken_ne_empty,
    Bool.false_eq_true, if_false, jwtVerifyStr, decodeToken_encodeToken, hver]

/-- C1: For every user row created by a successful registration, a login
with that user's email and the correct plaintext password returns 200 and a
token that `verify` accepts (at any time up to the 1-hour expiry), whose
decoded claims carry the same userId, username, and email as the stored
user row (round-trip of issue followed by verify). -/
theorem claim_C1 (salt secret : String) (now vnow : Nat) (req : RegisterReq)
    (db : DB) (u : UserRow) (db' : DB) (q : Nat)
    (hsalt : saltOk salt = true)
    (hreg : register salt req db = (.created u, db', q))
    (hvnow : vnow ≤ now + 3600) :
    ∃ tok : Token,
      login secret now ⟨req.email, req.password⟩ db' = (.success tok, db', 1)
    ∧ loginStatus (.success tok) = 200
    ∧ jwtVerify secret vnow tok =
        .ok { userId := u.id, username := u.username, email := u.email } := by
  obtain ⟨h1, h2, h3, hem, -, hu, hdb, -⟩ :=
    register_created_inv salt req db u db' q hreg
  have hfe : findByEmail db' (req.email.getD "") = [u] := by
    rw [hdb]
    unfold findByEmail at hem ⊢
    simp only []
    rw [List.filter_append, hem, List.nil_append]
    rw [hu]
    simp [registerRow]
  have hcomp : bcryptCompare (req.password.getD "") u.password = true := by
    rw [hu]
    exact bcryptCompare_hash salt _ hsalt
  refine ⟨jwtSign secret
      { userId := u.id, username := u.username, email := u.email } now 3600,
      ?_, rfl, jwtVerify_sign secret _ now 3600 vnow hvnow⟩
  have hcond : (truthy req.email && truthy req.password) = true := by
    rw [h2, h3]
    rfl
  unfold login
  simp only [hcond, Bool.not_true, Bool.false_eq_true, if_false, hfe,
    List.head?_cons, hcomp]

/-! ## Concrete instances for the witnesses -/

/-- An empty database with fresh id sequences. -/
def db0 : DB := ⟨[], [], 1, 1⟩

/-- A concrete registration request. -/
def req0 : RegisterReq := ⟨some "alice", some "a@x", some "pw"⟩

/-- The user row produced by registering `req0` against `db0` with salt
`"s"`. -/
def u0 : UserRow := ⟨1, "alice", "a@x", bcryptHash "s" "pw"⟩

/-- The database after that registration. -/
def db1 : DB := ⟨[u0], [], 2, 1⟩

/-- A login request matching `u0`. -/
def lreq0 : LoginReq := ⟨some "a@x", some "pw"⟩

/-- Claims of a second, different user. -/
def cBob : Claims := ⟨2, "bob", "b@x"⟩

/-- A valid (unexpired at time 7) token for `cBob`. -/
def tokBob : Token := ⟨cBob, 9, jwtSignature "k" cBob 9⟩

/-- A concrete add-skill request. -/
def areq0 : AddSkillReq := ⟨some "go", some "expert", none⟩

/-- A concrete update-skill request. -/
def ureq0 : UpdateSkillReq := ⟨some "rust", some "novice"⟩

/-- A skill row owned by user 1 (not by `cBob`). -/
def s0 : SkillRow := ⟨5, 1, "go", "expert"⟩

/-- A database holding `u0` and the skill `s0`. -/
def dbS : DB := ⟨[u0], [s0], 2, 6⟩

/-! ## Witnesses -/

theorem claim_C1_witness :
    ∃ tok : Token,
      login "k" 0 ⟨req0.email, req0.password⟩ db1 = (.success tok, db1, 1)
    ∧ loginStatus (.success tok) = 200
    ∧ jwtVerify "k" 5 tok =
        .ok { userId := u0.id, username := u0.username, email := u0.email } :=
  claim_C1 "s" "k" 0 5 req0 db0 u0 db1 3 (by decide) (by decide) (by decide)

theorem claim_C2_witness :
    authenticate "k" 7 (some ("Bearer " ++ encodeToken tokBob)) = .authed cBob
  ∧ authStatus (.authed cBob) = none :=
  (claim_C2 "k" 7 ("Bearer " ++ encodeToken tokBob) cBob).2.2.1
    (by decide) (by decide)

theorem claim_C3_witness :
    register "s" req0 db0 =
      (.created (registerRow "s" req0 db0),
       { db0 with users := db0.users ++ [registerRow "s" req0 db0],
                  nextUserId := db0.nextUserId + 1 }, 3)
  ∧ registerStatus (.created (registerRow "s" req0 db0)) = 201 :=
  (claim_C3 "s" req0 db0).2.2.2 (by decide) (by decide) (by decide)

theorem claim_C4_witness :
    login "k" 0 ⟨some "a@x", some "bad"⟩ db1 = (.unauthorized, db1, 1)
  ∧ loginStatus .unauthorized = 401 :=
  (claim_C4 "k" 0 ⟨some "a@x", some "bad"⟩ db1 u0).2.2
    (by decide) (by decide) (by decide)

theorem claim_C5_witness :
    u0.password = bcryptHash "s" (req0.password.getD "")
  ∧ u0.password ≠ req0.password.getD ""
  ∧ db1.users = db0.users ++ [u0]
  ∧ ((login "k" 0 lreq0 db1).2.1).users = db1.users
  ∧ ((addSkill cBob areq0 db1).2.1).users = db1.users
  ∧ ((updateSkill 5 ureq0 db1).2.1).users = db1.users
  ∧ ((deleteSkill 5 db1).2.1).users = db1.users :=
  claim_C5 "s" req0 db0 u0 db1 3 "k" 0 lreq0 cBob areq0 5 ureq0 db1
    (by decide)

theorem claim_C6_witness :
    addSkill cBob areq0 db1 =
      (.created (skillRow cBob areq0 db1),
       { db1 with skills := db1.skills ++ [skillRow cBob areq0 db1],
                  nextSkillId := db1.nextSkillId + 1 }, 1)
  ∧ (skillRow cBob areq0 db1).user_id = cBob.userId
  ∧ addSkillStatus (.created (skillRow cBob areq0 db1)) = 201
  ∧ addSkill cBob { areq0 with user_id := some 99 } db1 =
      addSkill cBob areq0 db1 :=
  (claim_C6 cBob areq0 db1 (some 99)).1 (by decide)

theorem claim_C7_witness :
    (∃ r db', protectedRoute "k" 7 (some ("Bearer " ++ encodeToken tokBob))
        (fun _ => updateSkill 5 ureq0 dbS)
        = .handled (.updated r, db', 1) ∧ updateSkillStatus (.updated r) = 200)
  ∧ (∃ db', protectedRoute "k" 7 (some ("Bearer " ++ encodeToken tokBob))
        (fun _ => deleteSkill 5 dbS)
        = .handled (.deleted, db', 1) ∧ deleteSkillStatus .deleted = 200)
  ∧ (∀ d : DB, (∀ t ∈ d.skills, t.id ≠ 5) →
      updateSkill 5 ureq0 d = (.notFound, d, 1)
      ∧ deleteSkill 5 d = (.notFound, d, 1)
      ∧ updateSkillStatus .notFound = 404
      ∧ deleteSkillStatus .notFound = 404) :=
  claim_C7 "k" 7 (some ("Bearer " ++ encodeToken tokBob)) cBob dbS 5 ureq0 s0
    (by decide) (by decide) (by decide) (by decide) (by decide)

theorem claim_C8_witness :
    ∃ db' : DB,
      deleteSkill 5 dbS = (.deleted, db', 1)
    ∧ deleteSkillStatus .deleted = 200
    ∧ (∀ owner, ∀ t ∈ listSkills owner db', t.id ≠ 5)
    ∧ deleteSkill 5 db' = (.notFound, db', 1)
    ∧ updateSkill 5 ureq0 db' = (.notFound, db', 1)
    ∧ deleteSkillStatus .notFound = 404
    ∧ updateSkillStatus .notFound = 404
    ∧ (∀ d : DB, (∀ t ∈ d.skills, t.id ≠ 5) →
        deleteSkill 5 d = (.notFound, d, 1)
        ∧ updateSkill 5 ureq0 d = (.notFound, d, 1)) :=
  claim_C8 dbS 5 s0 ureq0 (by decide) (by decide) (by decide)

theorem claim_C9_witness :
    jwtVerify "k" 3601 (jwtSign "k" ⟨1, "alice", "a@x"⟩ 0 3600) = .expired
  ∧ authenticate "k" 3601
      (some ("Bearer " ++ encodeToken (jwtSign "k" ⟨1, "alice", "a@x"⟩ 0 3600)))
      = .invalid
  ∧ authStatus .invalid = some 400 :=
  claim_C9 "k" 0 3601 lreq0 db1 (jwtSign "k" ⟨1, "alice", "a@x"⟩ 0 3600) db1 1
    (by decide) (by decide)

theorem claim_C10_witness :
    register "s" ⟨some "alice", some "", some "pw"⟩ db1 =
      (.validationError, db1, 0)
  ∧ registerStatus .validationError = 400 :=
  (claim_C10 "s" db1 ⟨some "alice", some "", some "pw"⟩ areq0 ureq0 cBob 0).1
    (Or.inr (Or.inl rfl))

end SkillHub
